import Mathlib

/-!
Verification development for the counseling-support analysis engine.

The analysis-engine behaviour of this repository is fixed by the design
documents under `tickets/` and the phase implementation records: the
Python fragments there (`QualityScorer.calculate_score`, `ensure_coverage`,
`FailureToSuccessMapper.find_similar_successes`, `kmeans_clustering`,
`ScriptQualityAnalyzer.analyze_coverage`, the pgvector search query) are
embedded below as executable Lean definitions over `ℚ`.  Helper functions
that the fragments call but whose bodies the repository does not show
(`select_best_from_cluster`, `select_additional_representatives`,
`calculate_novelty`, `search_similar`, the silhouette/k-means library
calls, the ClusteringEngine guard) are modelled from the specification and
are marked as such in their doc comments.
-/

/- ===================== QualityScorer (composite score) ===================== -/

/-- Conversation record as consumed by `QualityScorer.calculate_score`:
distance to the cluster centroid, success rate, and the raw text. -/
structure ConversationData where
  distance_to_centroid : ℚ
  success_rate : ℚ
  text : String

/-- Default weight w1 (centroid-distance component) of the composite score. -/
def w1 : ℚ := 0.3

/-- Default weight w2 (success-rate component) of the composite score. -/
def w2 : ℚ := 0.3

/-- Default weight w3 (length component) of the composite score. -/
def w3 : ℚ := 0.2

/-- Default weight w4 (novelty component) of the composite score. -/
def w4 : ℚ := 0.2

/-- Embedding of `QualityScorer.calculate_score`.  The bodies of
`calculate_length_score` and `calculate_novelty` are not shown at the call
site, so they are taken as parameters; the weighted sum is written exactly
as in the source (`centroid_score * 0.3 + success_rate_score * 0.3 +
length_score * 0.2 + novelty_score * 0.2`). -/
def QualityScorer.calculate_score (calculate_length_score : String → ℚ)
    (calculate_novelty_fn : ConversationData → List ConversationData → ℚ)
    (existing_representatives : List ConversationData)
    (conversation : ConversationData) : ℚ :=
  let centroid_score : ℚ := 1 - conversation.distance_to_centroid
  let success_rate_score : ℚ := conversation.success_rate
  let length_score : ℚ := calculate_length_score conversation.text
  let novelty_score : ℚ := calculate_novelty_fn conversation existing_representatives
  centroid_score * 0.3 + success_rate_score * 0.3 +
    length_score * 0.2 + novelty_score * 0.2

/- ===================== Novelty score ===================== -/

/-- Modelled from the spec: `calculate_novelty` (body absent from the
repository sources) is `1 − max(cosineSimilarity to already-selected
representatives)`, with the maximum over an empty selected set taken as 0
so that the first-ever novelty is 1.0 by convention.  The similarity
function is a parameter (the embedding vectors themselves live outside the
repository). -/
def calculate_novelty {α : Type} (sim : α → α → ℚ) (conversation : α)
    (selected : List α) : ℚ :=
  1 - (selected.map (sim conversation)).foldr max 0

/- ===================== ScriptQualityAnalyzer.analyze_coverage ===================== -/

/-- Result record of `analyze_coverage`: raw percentage, covered and
missing pattern lists, and the normalized score. -/
structure CoverageResult where
  coverage_percentage : ℚ
  covered_patterns : List String
  missing_patterns : List String
  normalized_score : ℚ

/-- Embedding of `ScriptQualityAnalyzer.analyze_coverage`.  The predicate
`is_pattern_covered` is a parameter (its body is not shown in the source).
The Python body divides by `len(success_patterns)` with no guard, so the
empty-baseline case is embedded as `none` (Python's ZeroDivisionError
branch); otherwise the source computes
`coverage_percentage = len(covered)/len(patterns) * 100` and
`normalized_score = min(coverage_percentage / 80, 1.0)`. -/
def analyze_coverage (is_pattern_covered : String → Bool)
    (success_patterns : List String) : Option CoverageResult :=
  let covered_patterns := success_patterns.filter is_pattern_covered
  if success_patterns.length = 0 then
    none
  else
    let coverage_percentage : ℚ :=
      (covered_patterns.length : ℚ) / (success_patterns.length : ℚ) * 100
    some
      { coverage_percentage := coverage_percentage
        covered_patterns := covered_patterns
        missing_patterns :=
          success_patterns.filter (fun p => ¬ p ∈ covered_patterns)
        normalized_score := min (coverage_percentage / 80) 1 }

/- ===================== VectorSearchService (pgvector query) ===================== -/

/-- Integer Newton iteration for the square root, with structural fuel
so that it reduces inside the kernel; `fuel = n` always suffices. -/
def fuelSqrt : ℕ → ℕ → ℕ → ℕ
  | 0, _, guess => guess
  | fuel + 1, n, guess =>
    let next := (guess + n / guess) / 2
    if next < guess then fuelSqrt fuel n next else guess

/-- Integer square root (floor), computed by Newton iteration. -/
def natSqrt (n : ℕ) : ℕ := if n ≤ 1 then n else fuelSqrt n n (n / 2 + 1)

/-- Rational square root: exact whenever numerator and denominator are
perfect squares (the only case arising in the concrete datasets below,
whose vectors are built so that all norms and distances are rational). -/
def ratSqrt (q : ℚ) : ℚ :=
  if q ≤ 0 then 0 else (natSqrt q.num.toNat : ℚ) / (natSqrt q.den : ℚ)

/-- Dot product of two rational vectors. -/
def dotQ (u v : List ℚ) : ℚ :=
  (List.zipWith (fun a b => a * b) u v).sum

/-- Cosine distance as computed by the pgvector operator used in the
query (`embedding <=> q`), namely `1 − cos(u, v)`; the norms are taken
with `ratSqrt`, which is exact on the vectors used below. -/
def cosine_distance (u v : List ℚ) : ℚ :=
  1 - dotQ u v / (ratSqrt (dotQ u u) * ratSqrt (dotQ v v))

/-- Row of the `success_conversation_vectors` table: id, embedding,
the `success_rate` metadata field, and creation time. -/
structure VectorRow where
  id : ℕ
  embedding : List ℚ
  success_rate : ℚ
  created_at : ℕ
deriving DecidableEq

/-- Comparison used by `ORDER BY embedding <=> %s`: ascending cosine
distance (the second component of each pending result row). -/
def byDistance (a b : VectorRow × ℚ) : Prop := a.2 ≤ b.2

instance : DecidableRel byDistance := fun a b => inferInstanceAs (Decidable (a.2 ≤ b.2))

instance : IsTotal (VectorRow × ℚ) byDistance := ⟨fun a b => le_total a.2 b.2⟩

instance : IsTrans (VectorRow × ℚ) byDistance := ⟨fun _ _ _ => le_trans⟩

/-- Embedding of the PostgreSQL search query of `VectorSearchService`:

`SELECT *, (embedding <=> %s) as similarity_score
 FROM success_conversation_vectors
 WHERE metadata->>'success_rate' >= %s
 ORDER BY embedding <=> %s LIMIT %s;`

Rows are filtered by the `WHERE` clause, each is paired with the value
the query labels `similarity_score` (which is the cosine DISTANCE
`embedding <=> q`, not a similarity), ordered by that distance ascending
— the query has no secondary sort key, so ties keep table order here —
and truncated by `LIMIT`. -/
def vector_search (q : List ℚ) (success_rate_min : ℚ) (limit : ℕ)
    (table : List VectorRow) : List (VectorRow × ℚ) :=
  (((table.filter (fun r => success_rate_min ≤ r.success_rate)).map
      (fun r => (r, cosine_distance r.embedding q))).insertionSort byDistance).take limit

/- ===================== FailureToSuccessMapper ===================== -/

/-- Success-search candidate as seen by `FailureToSuccessMapper`: an id
together with the `similarity_score` field the search attaches to it. -/
structure SuccessCandidate where
  id : ℕ
  similarity_score : ℚ
deriving DecidableEq

/-- Comparison used to rank success candidates: descending similarity. -/
def bySimilarityDesc (a b : SuccessCandidate) : Prop :=
  b.similarity_score ≤ a.similarity_score

instance : DecidableRel bySimilarityDesc :=
  fun a b => inferInstanceAs (Decidable (b.similarity_score ≤ a.similarity_score))

instance : IsTotal SuccessCandidate bySimilarityDesc :=
  ⟨fun a b => le_total b.similarity_score a.similarity_score⟩

instance : IsTrans SuccessCandidate bySimilarityDesc :=
  ⟨fun _ _ _ hab hbc => le_trans hbc hab⟩

/-- Modelled from the spec: `search_similar` (the implementation behind
`self.vector_search_service.search_similar(query_vector, threshold,
top_k, filters)` is not among the repository sources) applies the
similarity threshold as a pre-filter on the candidate set, ranks the
survivors by descending similarity, and only then truncates to `top_k`. -/
def search_similar (candidates : List SuccessCandidate) (threshold : ℚ)
    (top_k : ℕ) : List SuccessCandidate :=
  (((candidates.filter (fun c => threshold ≤ c.similarity_score)).insertionSort
      bySimilarityDesc).take top_k)

/-- Analyzed entry returned by `find_similar_successes`: the matched
success, its similarity score, and the derived analysis fields. -/
structure AnalyzedResult (σ δ η : Type) where
  success_conversation : SuccessCandidate
  similarity_score : ℚ
  situation_similarity : σ
  key_differences : δ
  improvement_hints : η

/-- Embedding of `FailureToSuccessMapper.find_similar_successes`: the
failure text is embedded transiently (here the candidate similarities are
the input, the embedding provider being external), `search_similar` is
called with `threshold=0.7` and `top_k=10`, and each hit is mapped to an
analyzed record carrying its `similarity_score`.  The analysis helpers
(`analyze_situation_similarity`, `extract_success_factors`,
`generate_improvement_hints`) have no bodies in the source and are
parameters. -/
def find_similar_successes {σ δ η : Type}
    (analyze_situation_similarity : SuccessCandidate → σ)
    (extract_success_factors : SuccessCandidate → δ)
    (generate_improvement_hints : δ → η)
    (candidates : List SuccessCandidate) : List (AnalyzedResult σ δ η) :=
  (search_similar candidates 0.7 10).map (fun success =>
    let success_factors := extract_success_factors success
    { success_conversation := success
      similarity_score := success.similarity_score
      situation_similarity := analyze_situation_similarity success
      key_differences := success_factors
      improvement_hints := generate_improvement_hints success_factors })

/- ===================== RepresentativeSelector (ensure_coverage) ===================== -/

/-- Candidate conversation as ranked by `ensure_coverage`: an id, the
cluster it belongs to, and its composite quality score. -/
structure Candidate where
  id : ℕ
  cluster_id : ℕ
  score : ℚ
deriving DecidableEq

/-- Modelled from the spec: `select_best_from_cluster` (body absent from
the repository sources) picks the top-scoring member of a cluster; on a
score tie the earlier member is kept.  An empty cluster yields `none`. -/
def select_best_from_cluster : List Candidate → Option Candidate
  | [] => none
  | c :: rest =>
    match select_best_from_cluster rest with
    | none => some c
    | some b => if b.score ≤ c.score then some c else some b

/-- Comparison used to rank fill candidates: descending composite score. -/
def byScoreDesc (a b : Candidate) : Prop := b.score ≤ a.score

instance : DecidableRel byScoreDesc :=
  fun a b => inferInstanceAs (Decidable (b.score ≤ a.score))

instance : IsTotal Candidate byScoreDesc := ⟨fun a b => le_total b.score a.score⟩

instance : IsTrans Candidate byScoreDesc := ⟨fun _ _ _ hab hbc => le_trans hbc hab⟩

/-- Modelled from the spec: `select_additional_representatives` (body
absent from the repository sources) fills the remaining budget with the
next-highest composite scores across all candidates not yet selected. -/
def select_additional_representatives (clusters : List (List Candidate))
    (selected : List Candidate) (remaining_slots : ℕ) : List Candidate :=
  ((clusters.flatten.filter (fun c => ¬ c ∈ selected)).insertionSort
      byScoreDesc).take remaining_slots

/-- Embedding of `ensure_coverage` (ticket F4-001): one guaranteed pick
per cluster first, then `remaining_slots = max_representatives −
len(selected)` additional picks (truncated subtraction: a cluster count
already above the budget leaves no fill slots). -/
def ensure_coverage (clusters : List (List Candidate))
    (max_representatives : ℕ) : List Candidate :=
  let selected := clusters.filterMap select_best_from_cluster
  let remaining_slots := max_representatives - selected.length
  selected ++ select_additional_representatives clusters selected remaining_slots

/- ===================== ClusteringService (k sweep) ===================== -/

/-- Embedding of `kmeans_clustering` (ticket F3-004): sweep `k` over
`range(*k_range)` — the half-open Python range, so `k_range=(2, 15)`
evaluates `k = 2, …, 14` — starting from `best_k = 2`, `best_score = −1`,
replacing the best only on a strictly greater validity score (so ties go
to the smaller `k`).  The per-`k` clustering plus `silhouette_score` call
is the `validity` parameter; the pair `(best_k, best_score)` is returned. -/
def kmeans_clustering (validity : ℕ → ℚ) (k_range : ℕ × ℕ) : ℕ × ℚ :=
  (List.range' k_range.1 (k_range.2 - k_range.1)).foldl
    (fun best k =>
      let score := validity k
      if best.2 < score then (k, score) else best)
    (2, -1)

/-- Mean of a list of rationals (0 for the empty list, since `x / 0 = 0`
in `ℚ`). -/
def meanQ (l : List ℚ) : ℚ := l.sum / (l.length : ℚ)

/-- Minimum of a list of rationals, 0 for the empty list. -/
def minQ : List ℚ → ℚ
  | [] => 0
  | x :: xs => xs.foldl min x

/-- Modelled from the spec: the internal validity measure is sklearn's
`silhouette_score` (a library call, not repository code).  For sample `i`
with cluster label `ℓ`: `a(i)` is the mean distance to the other members
of `ℓ` (samples in singleton clusters score 0), `b(i)` is the smallest
mean distance to another cluster, the sample silhouette is
`(b − a) / max(a, b)`, and the score is the mean over all samples. -/
def silhouette_score {α : Type} (d : α → α → ℚ) (pts : List α)
    (labels : List ℕ) : ℚ :=
  let en := (pts.zip labels).enum
  meanQ (en.map (fun pi =>
    let i := pi.1
    let p := pi.2.1
    let lab := pi.2.2
    let own := en.filter (fun qj => qj.2.2 == lab && qj.1 != i)
    if own.length = 0 then 0
    else
      let a := meanQ (own.map (fun qj => d p qj.2.1))
      let otherLabels := ((en.map (fun qj => qj.2.2)).filter
        (fun l2 => l2 != lab)).dedup
      if otherLabels.length = 0 then 0
      else
        let b := minQ (otherLabels.map (fun l2 =>
          meanQ ((en.filter (fun qj => qj.2.2 == l2)).map
            (fun qj => d p qj.2.1))))
        if max a b = 0 then 0 else (b - a) / max a b))

/-- Euclidean distance between two rational vectors; `ratSqrt` is exact
on the blob dataset below, where squared distances are perfect squares. -/
def euclidean_distance (u v : List ℚ) : ℚ :=
  ratSqrt ((List.zipWith (fun a b => (a - b) ^ 2) u v).sum)

/-- Eight-dimensional point whose first coordinate carries the position
`t`; the remaining coordinates are fixed, so Euclidean distances between
such points are exactly `|t − t'|`. -/
def blobPoint (t : ℚ) : List ℚ := [t, 1, 0, 0, 0, 0, 0, 0]

/-- Two well-separated synthetic blobs of 6 eight-dimensional points
each: positions 0–5 and 100–105 along the first coordinate. -/
def blobPoints : List (List ℚ) :=
  [blobPoint 0, blobPoint 1, blobPoint 2, blobPoint 3, blobPoint 4,
   blobPoint 5, blobPoint 100, blobPoint 101, blobPoint 102,
   blobPoint 103, blobPoint 104, blobPoint 105]

/-- Modelled from the spec: the labels sklearn's `KMeans` (a library
call, not repository code) assigns to `blobPoints` for each swept `k` —
the inertia-minimizing partition.  For `k = 2` the two blobs; for `k = 3`
one blob is split at its midpoint (splitting either blob gives the same
inertia and, by symmetry, the same silhouette). -/
def blobKmeansLabels : ℕ → List ℕ
  | 2 => [0, 0, 0, 0, 0, 0, 1, 1, 1, 1, 1, 1]
  | 3 => [0, 0, 0, 1, 1, 1, 2, 2, 2, 2, 2, 2]
  | _ => []

/-- Validity of each swept `k` on the blob dataset: the silhouette of the
k-means labelling. -/
def blobValidity (k : ℕ) : ℚ :=
  silhouette_score euclidean_distance blobPoints (blobKmeansLabels k)

/- ===================== ClusteringEngine (data guard) ===================== -/

/-- Completed cluster run: the algorithm name and the per-vector labels. -/
structure ClusterRunRec where
  algorithm : String
  labels : List ℕ
deriving DecidableEq

/-- Persisted state of the clustering store: the list of completed runs. -/
structure EngineStore where
  runs : List ClusterRunRec
deriving DecidableEq

/-- Error taxonomy entry raised when too few vectors are available. -/
inductive ClusteringError where
  | insufficientData
deriving DecidableEq

/-- Modelled from the spec: the ClusteringEngine entry point (the backend
service is referenced by the implementation records but is not among the
repository sources).  With fewer than `2 × minClusterSize` vectors it
raises `InsufficientDataError` and persists nothing; otherwise it runs the
configured strategy and appends the completed run atomically. -/
def run_clustering (algo : List (List ℚ) → ClusterRunRec)
    (min_cluster_size : ℕ) (vectors : List (List ℚ)) (store : EngineStore) :
    Except ClusteringError ClusterRunRec × EngineStore :=
  if vectors.length < 2 * min_cluster_size then
    (Except.error ClusteringError.insufficientData, store)
  else
    let run := algo vectors
    (Except.ok run, ⟨store.runs ++ [run]⟩)

/- ===================== Theorems: C5, C7, C10, C8, C9 ===================== -/

/-- C5: for every candidate conversation, the composite representative
quality score computed by `QualityScorer.calculate_score` equals
`w1*(1 − normalizedDistanceToCentroid) + w2*successRate + w3*lengthScore +
w4*noveltyScore` with the default weights `w1 = 0.3`, `w2 = 0.3`,
`w3 = 0.2`, `w4 = 0.2`. -/
theorem C5_composite_score (calculate_length_score : String → ℚ)
    (calculate_novelty_fn : ConversationData → List ConversationData → ℚ)
    (existing_representatives : List ConversationData)
    (conversation : ConversationData) :
    QualityScorer.calculate_score calculate_length_score calculate_novelty_fn
        existing_representatives conversation =
      w1 * (1 - conversation.distance_to_centroid) +
        w2 * conversation.success_rate +
        w3 * calculate_length_score conversation.text +
        w4 * calculate_novelty_fn conversation existing_representatives := by
  simp only [QualityScorer.calculate_score, w1, w2, w3, w4]
  ring

/-- C7: for every script and non-empty baseline pattern set, the quality
coverage score of `analyze_coverage` equals the raw covered fraction
scaled linearly so that a raw fraction of 4/5 (80%) maps to 1, clipped at
1 above; it is 0 when none of the baseline markers is detected. -/
theorem C7_coverage_score (is_pattern_covered : String → Bool)
    (success_patterns : List String) (h : success_patterns ≠ []) :
    (analyze_coverage is_pattern_covered success_patterns).map
        (fun r => r.normalized_score) =
      some (min ((5 / 4) *
        (((success_patterns.filter is_pattern_covered).length : ℚ) /
          (success_patterns.length : ℚ))) 1) ∧
    ((success_patterns.filter is_pattern_covered).length = 0 →
      (analyze_coverage is_pattern_covered success_patterns).map
          (fun r => r.normalized_score) = some 0) ∧
    (((success_patterns.filter is_pattern_covered).length : ℚ) /
        (success_patterns.length : ℚ) = 4 / 5 →
      (analyze_coverage is_pattern_covered success_patterns).map
          (fun r => r.normalized_score) = some 1) := by
  have hlen : success_patterns.length ≠ 0 := by
    simpa [List.length_eq_zero] using h
  have hscale : ((success_patterns.filter is_pattern_covered).length : ℚ) /
      (success_patterns.length : ℚ) * 100 / 80 =
      (5 / 4) * (((success_patterns.filter is_pattern_covered).length : ℚ) /
        (success_patterns.length : ℚ)) := by ring
  refine ⟨?_, ?_, ?_⟩
  · simp [analyze_coverage, hlen, hscale]
  · intro h0
    simp [analyze_coverage, hlen, hscale, h0]
  · intro h45
    simp [analyze_coverage, hlen, hscale, h45]
    norm_num

/-- C7 witness: a single baseline pattern detected in the script yields a
raw fraction of 1 and a clipped score of 1; the theorem applies at this
concrete input. -/
theorem C7_coverage_score_witness :
    (analyze_coverage (fun _ => true) ["closing"]).map
        (fun r => r.normalized_score) =
      some (min ((5 / 4) *
        (((["closing"].filter (fun _ => true)).length : ℚ) /
          ((["closing"] : List String).length : ℚ))) 1) :=
  (C7_coverage_score (fun _ => true) ["closing"] (by decide)).1

/-- C10: the coverage computation divides by the number of baseline
success patterns with no guard, so it only returns a score when the
baseline is non-empty; for an empty baseline the division-by-zero error
branch (`none`) is reached instead of any score. -/
theorem C10_coverage_requires_nonempty_baseline
    (is_pattern_covered : String → Bool) (success_patterns : List String) :
    analyze_coverage is_pattern_covered [] = none ∧
    (success_patterns ≠ [] →
      (analyze_coverage is_pattern_covered success_patterns).isSome) := by
  constructor
  · simp [analyze_coverage]
  · intro h
    have hlen : success_patterns.length ≠ 0 := by
      simpa [List.length_eq_zero] using h
    simp [analyze_coverage, hlen]

/-- Helper: a `foldr max` result is at least its initial value. -/
theorem init_le_foldr_max (b : ℚ) (l : List ℚ) : b ≤ l.foldr max b := by
  induction l with
  | nil => exact le_refl b
  | cons x xs ih => exact le_trans ih (le_max_right x _)

/-- Helper: `foldr max` is monotone in its initial value. -/
theorem foldr_max_mono {a b : ℚ} (l : List ℚ) (h : a ≤ b) :
    l.foldr max a ≤ l.foldr max b := by
  induction l with
  | nil => exact h
  | cons x xs ih => exact max_le_max (le_refl x) ih

/-- C8: the novelty score `1 − max(similarity to the selected set)` is
non-increasing as the greedily selected set grows (appending further
representatives can only raise the maximum similarity). -/
theorem C8_novelty_nonincreasing {α : Type} (sim : α → α → ℚ)
    (conversation : α) (selected grown : List α) :
    calculate_novelty sim conversation (selected ++ grown) ≤
      calculate_novelty sim conversation selected := by
  unfold calculate_novelty
  have hmax : (selected.map (sim conversation)).foldr max 0 ≤
      ((selected ++ grown).map (sim conversation)).foldr max 0 := by
    rw [List.map_append, List.foldr_append]
    exact foldr_max_mono _ (init_le_foldr_max _ _)
  linarith

/-- C9: with fewer than `2 × minClusterSize` vectors the ClusteringEngine
raises `InsufficientDataError`, performs no clustering and persists no
ClusterRun: the returned store is exactly the input store. -/
theorem C9_insufficient_data (algo : List (List ℚ) → ClusterRunRec)
    (min_cluster_size : ℕ) (vectors : List (List ℚ)) (store : EngineStore)
    (h : vectors.length < 2 * min_cluster_size) :
    run_clustering algo min_cluster_size vectors store =
      (Except.error ClusteringError.insufficientData, store) := by
  simp [run_clustering, h]

/-- C9 witness: nine 1536-free vectors with `minClusterSize = 5` (nine
being below `2 × 5`) hit the error path and leave the store unchanged. -/
theorem C9_insufficient_data_witness :
    ([[(1 : ℚ)], [2], [3], [4], [5], [6], [7], [8], [9]].length < 2 * 5) ∧
    run_clustering (fun _ => ⟨"kmeans", []⟩) 5
        [[(1 : ℚ)], [2], [3], [4], [5], [6], [7], [8], [9]] ⟨[]⟩ =
      (Except.error ClusteringError.insufficientData, ⟨[]⟩) :=
  ⟨by decide, C9_insufficient_data _ 5 _ ⟨[]⟩ (by decide)⟩

/-- C10 witness: a one-element baseline is non-empty and produces a
score, by the theorem applied at this concrete input. -/
theorem C10_coverage_requires_nonempty_baseline_witness :
    (analyze_coverage (fun _ => false) ["opening"]).isSome :=
  (C10_coverage_requires_nonempty_baseline (fun _ => false) ["opening"]).2
    (by decide)

/- ===================== Theorems: C3 ===================== -/

/-- C3: the similarity threshold is applied as a pre-filter before
truncation to top-K, never after: every returned candidate is at or above
the threshold, the result length is `min(topK, number of candidates
passing the threshold)` (so the budget is filled whenever enough
candidates pass — the signature of threshold-first ordering), a query
where no candidate passes returns the empty list rather than an error,
and `find_similar_successes` (threshold 0.7, topK 10) inherits the
threshold bound on every analyzed result. -/
theorem C3_threshold_prefilter (candidates : List SuccessCandidate)
    (threshold : ℚ) (top_k : ℕ)
    (a1 : SuccessCandidate → Unit) (a2 : SuccessCandidate → Unit)
    (a3 : Unit → Unit) :
    (∀ r ∈ search_similar candidates threshold top_k,
        threshold ≤ r.similarity_score) ∧
    (search_similar candidates threshold top_k).length =
      min top_k (candidates.countP
        (fun c => decide (threshold ≤ c.similarity_score))) ∧
    (candidates.countP (fun c => decide (threshold ≤ c.similarity_score)) = 0 →
      search_similar candidates threshold top_k = []) ∧
    (∀ r ∈ find_similar_successes a1 a2 a3 candidates,
        (0.7 : ℚ) ≤ r.similarity_score) := by
  have hmem : ∀ (th : ℚ) (k : ℕ), ∀ r ∈ search_similar candidates th k,
      th ≤ r.similarity_score := by
    intro th k r hr
    have h1 : r ∈ (candidates.filter
        (fun c => decide (th ≤ c.similarity_score))).insertionSort
          bySimilarityDesc :=
      (List.take_sublist _ _).mem hr
    have h2 : r ∈ candidates.filter
        (fun c => decide (th ≤ c.similarity_score)) :=
      (List.perm_insertionSort bySimilarityDesc _).mem_iff.mp h1
    have := (List.mem_filter.mp h2).2
    simpa using this
  have hlen : (search_similar candidates threshold top_k).length =
      min top_k (candidates.countP
        (fun c => decide (threshold ≤ c.similarity_score))) := by
    unfold search_similar
    rw [List.length_take, List.length_insertionSort,
      ← List.countP_eq_length_filter]
  refine ⟨hmem threshold top_k, hlen, ?_, ?_⟩
  · intro h0
    have : (search_similar candidates threshold top_k).length = 0 := by
      simp [hlen, h0]
    exact List.length_eq_zero.mp this
  · intro r hr
    rcases List.mem_map.mp hr with ⟨s, hs, rfl⟩
    exact hmem 0.7 10 s hs

/-- C3 witness: with threshold 0.7 a lone candidate at similarity 0.5
passes nothing and the mapping yields the valid empty list, by the
theorem applied at this concrete input. -/
theorem C3_threshold_prefilter_witness :
    search_similar [⟨1, 1 / 2⟩] (7 / 10) 10 = [] :=
  (C3_threshold_prefilter [⟨1, 1 / 2⟩] (7 / 10) 10
      (fun _ => ()) (fun _ => ()) (fun _ => ())).2.2.1
    (by with_unfolding_all decide)

/- ===================== Theorems: C4, C6 ===================== -/

/-- Tie-break property asserted by the spec for a search result: whenever
two results carry equal similarity score, the earlier-ranked one was
created more recently. -/
def tieBrokenByRecency (res : List (VectorRow × ℚ)) : Prop :=
  ∀ i j : Fin res.length, (i : ℕ) < (j : ℕ) →
    (res.get i).2 = (res.get j).2 →
    (res.get j).1.created_at ≤ (res.get i).1.created_at

/-- C4 counterexample: two rows with identical embeddings (hence equal
cosine distance 0 to the query) where the OLDER row (created_at 10) sits
earlier in the table.  The query orders by distance only, so the older
row is ranked first, refuting the claimed creation-time tie-break. -/
theorem C4_counterexample :
    vector_search [1, 0] 0 5 [⟨1, [1, 0], 1, 10⟩, ⟨2, [1, 0], 1, 20⟩] =
      [(⟨1, [1, 0], 1, 10⟩, 0), (⟨2, [1, 0], 1, 20⟩, 0)] ∧
    ¬ tieBrokenByRecency
        (vector_search [1, 0] 0 5 [⟨1, [1, 0], 1, 10⟩, ⟨2, [1, 0], 1, 20⟩]) := by
  constructor
  · with_unfolding_all decide
  · unfold tieBrokenByRecency
    with_unfolding_all decide

/-- C4 (amended): the search result is sorted in descending order of
cosine similarity (`1 − score`, the score column being the cosine
distance `embedding <=> q`); no creation-time tie-break is applied — the
query has no secondary sort key, and on equal similarity rows keep their
table order in this model. -/
theorem C4_sorted_by_similarity (q : List ℚ) (success_rate_min : ℚ)
    (limit : ℕ) (table : List VectorRow) :
    List.Pairwise (fun a b : VectorRow × ℚ => 1 - b.2 ≤ 1 - a.2)
      (vector_search q success_rate_min limit table) := by
  have hsorted : List.Sorted byDistance
      (((table.filter (fun r => success_rate_min ≤ r.success_rate)).map
        (fun r => (r, cosine_distance r.embedding q))).insertionSort byDistance) :=
    List.sorted_insertionSort byDistance _
  have htake : List.Pairwise byDistance (vector_search q success_rate_min limit table) :=
    List.Pairwise.sublist (List.take_sublist _ _) hsorted
  exact htake.imp (fun hab => by
    simp only [byDistance] at hab
    linarith)

/-- C6: code bug — querying with a vector `v` already in the store,
`top_k = 1`, no filter, returns `v` itself but with the value the query
labels `similarity_score` equal to the cosine DISTANCE `0.0`, not the
cosine similarity `≈1.0` the spec (and the code's own field name,
response examples and 0.7-threshold acceptance criteria) expect:
`|0 − 1|` is far above the 1e-6 tolerance, while the true cosine
similarity of `v` with itself is 1. -/
theorem C6_self_similarity_score_bug :
    vector_search [1, 0] 0 1 [⟨7, [1, 0], 1, 42⟩] = [(⟨7, [1, 0], 1, 42⟩, 0)] ∧
    1 - cosine_distance [1, 0] [1, 0] = 1 ∧
    ¬ (|(0 : ℚ) - 1| ≤ 1 / 1000000) := by
  refine ⟨by with_unfolding_all decide, by with_unfolding_all decide, by norm_num⟩

/- ===================== Theorems: C2 ===================== -/

/-- Helper: the strict-improvement fold of `kmeans_clustering` with an
explicit initial best pair. -/
def sweepFold (validity : ℕ → ℚ) (b : ℕ × ℚ) (l : List ℕ) : ℕ × ℚ :=
  l.foldl (fun best k => if best.2 < validity k then (k, validity k) else best) b

/-- Helper: over a strictly increasing candidate list, the fold keeps the
first (smallest) candidate whose validity strictly beats everything seen
before: the final score dominates the initial one and every candidate in
the list, it is attained by the final index whenever an update happened,
and every tying candidate that beats the initial score lies at or after
the final index. -/
theorem sweep_foldl_spec (validity : ℕ → ℚ) (l : List ℕ)
    (hl : l.Pairwise (· < ·)) (b : ℕ × ℚ) :
    b.2 ≤ (sweepFold validity b l).2 ∧
    (sweepFold validity b l = b ∨
      ((sweepFold validity b l).1 ∈ l ∧
        (sweepFold validity b l).2 = validity (sweepFold validity b l).1 ∧
        b.2 < (sweepFold validity b l).2)) ∧
    (∀ k ∈ l, validity k ≤ (sweepFold validity b l).2) ∧
    (∀ k ∈ l, validity k = (sweepFold validity b l).2 →
      b.2 < validity k → (sweepFold validity b l).1 ≤ k) := by
  induction l generalizing b with
  | nil =>
    exact ⟨le_refl _, Or.inl rfl, by simp, by simp⟩
  | cons a t ih =>
    have ha : ∀ x ∈ t, a < x := fun x hx => (List.pairwise_cons.mp hl).1 x hx
    have ht : t.Pairwise (· < ·) := (List.pairwise_cons.mp hl).2
    by_cases hba : b.2 < validity a
    · have hstep : sweepFold validity b (a :: t) =
          sweepFold validity (a, validity a) t := by
        simp [sweepFold, hba]
      obtain ⟨ih1, ih2, ih3, ih4⟩ := ih ht (a, validity a)
      rw [hstep]
      refine ⟨le_trans (le_of_lt hba) ih1, ?_, ?_, ?_⟩
      · rcases ih2 with heq | ⟨hmem, hval, hlt⟩
        · exact Or.inr ⟨by rw [heq]; exact List.mem_cons_self a t,
            by rw [heq], by rw [heq]; exact hba⟩
        · exact Or.inr ⟨List.mem_cons_of_mem a hmem, hval,
            lt_trans hba hlt⟩
      · intro k hk
        rcases List.mem_cons.mp hk with rfl | hkt
        · exact ih1
        · exact ih3 k hkt
      · intro k hk hkval _
        rcases List.mem_cons.mp hk with rfl | hkt
        · rcases ih2 with heq | ⟨_, _, hlt⟩
          · rw [heq]
          · exact absurd hkval (ne_of_lt hlt)
        · by_cases hbk : validity a < validity k
          · exact ih4 k hkt hkval hbk
          · have h1 : validity k ≤ validity a := le_of_not_lt hbk
            have h2 : validity a ≤ (sweepFold validity (a, validity a) t).2 := ih1
            have h3 : validity a = (sweepFold validity (a, validity a) t).2 := by
              rw [hkval] at h1
              exact le_antisymm h2 h1
            rcases ih2 with heq | ⟨_, _, hlt⟩
            · rw [heq]
              exact le_of_lt (ha k hkt)
            · exact absurd h3 (ne_of_lt hlt)
    · have hstep : sweepFold validity b (a :: t) = sweepFold validity b t := by
        simp [sweepFold, hba]
      obtain ⟨ih1, ih2, ih3, ih4⟩ := ih ht b
      rw [hstep]
      refine ⟨ih1, ?_, ?_, ?_⟩
      · rcases ih2 with heq | ⟨hmem, hval, hlt⟩
        · exact Or.inl heq
        · exact Or.inr ⟨List.mem_cons_of_mem a hmem, hval, hlt⟩
      · intro k hk
        rcases List.mem_cons.mp hk with rfl | hkt
        · exact le_trans (le_of_not_lt hba) ih1
        · exact ih3 k hkt
      · intro k hk hkval hbk
        rcases List.mem_cons.mp hk with rfl | hkt
        · exact absurd hbk hba
        · exact ih4 k hkt hkval hbk

/-- C2: the partitional strategy evaluates every `k` of the configured
sweep `range(*k_range)` (the half-open Python range: the default
`k_range = (2, 15)` evaluates `k = 2, …, 14`), computes the silhouette
validity of each, and — provided some swept `k` has a real silhouette
(above the `−1` sentinel) — returns the `k` whose validity is maximal,
ties broken toward the smaller `k`; its recorded best score is exactly
the validity of the returned `k`. -/
theorem C2_k_sweep_selects_best (validity : ℕ → ℚ) (kmin kmax : ℕ)
    (h : ∃ k ∈ List.range' kmin (kmax - kmin), -1 < validity k) :
    (kmeans_clustering validity (kmin, kmax)).1 ∈
      List.range' kmin (kmax - kmin) ∧
    (kmeans_clustering validity (kmin, kmax)).2 =
      validity (kmeans_clustering validity (kmin, kmax)).1 ∧
    (∀ k ∈ List.range' kmin (kmax - kmin),
      validity k ≤ validity (kmeans_clustering validity (kmin, kmax)).1) ∧
    (∀ k ∈ List.range' kmin (kmax - kmin),
      validity k = validity (kmeans_clustering validity (kmin, kmax)).1 →
      (kmeans_clustering validity (kmin, kmax)).1 ≤ k) := by
  obtain ⟨k0, hk0, hv0⟩ := h
  have hkm : kmeans_clustering validity (kmin, kmax) =
      sweepFold validity (2, -1) (List.range' kmin (kmax - kmin)) := rfl
  obtain ⟨h1, h2, h3, h4⟩ := sweep_foldl_spec validity
    (List.range' kmin (kmax - kmin)) (List.pairwise_lt_range' kmin (kmax - kmin))
    (2, -1)
  have hne : sweepFold validity (2, -1) (List.range' kmin (kmax - kmin)) ≠
      ((2 : ℕ), (-1 : ℚ)) := by
    intro heq
    have := h3 k0 hk0
    rw [heq] at this
    exact absurd (lt_of_lt_of_le hv0 this) (lt_irrefl _)
  rcases h2 with heq | ⟨hmem, hval, _⟩
  · exact absurd heq hne
  · refine ⟨hkm ▸ hmem, hkm ▸ hval, ?_, ?_⟩
    · intro k hk
      rw [hkm, ← hval]
      exact h3 k hk
    · intro k hk hkval
      rw [hkm]
      refine h4 k hk ?_ ?_
      · rw [hkm, ← hval] at hkval
        exact hkval
      · rw [hkm, ← hval] at hkval
        rw [hkval, hval]
        exact lt_of_lt_of_le hv0 (hval ▸ h3 k0 hk0)

set_option maxRecDepth 1000000 in
/-- C2 witness: on the two well-separated synthetic blobs of 6
eight-dimensional points each, with sweep range `(2, 4)` (so `k = 2, 3`
are evaluated), `k = 2` has silhouette above `−1`, the theorem applies,
and the engine deterministically selects `k = 2`. -/
theorem C2_k_sweep_selects_best_witness :
    ((2 : ℕ) ∈ List.range' 2 (4 - 2) ∧ (-1 : ℚ) < blobValidity 2) ∧
    (∀ k ∈ List.range' 2 (4 - 2),
      blobValidity k ≤ blobValidity (kmeans_clustering blobValidity (2, 4)).1) ∧
    (kmeans_clustering blobValidity (2, 4)).1 = 2 := by
  have happ := C2_k_sweep_selects_best blobValidity 2 4
    ⟨2, by decide, by with_unfolding_all decide⟩
  exact ⟨⟨by decide, by with_unfolding_all decide⟩, happ.2.2.1,
    by with_unfolding_all decide⟩

/- ===================== Theorems: C1 ===================== -/

/-- Helper: a non-empty cluster always yields a best member. -/
theorem select_best_from_cluster_isSome (c : Candidate) (rest : List Candidate) :
    ∃ b, select_best_from_cluster (c :: rest) = some b := by
  cases h : select_best_from_cluster rest with
  | none => exact ⟨c, by simp [select_best_from_cluster, h]⟩
  | some b =>
    by_cases hs : b.score ≤ c.score
    · exact ⟨c, by simp [select_best_from_cluster, h, hs]⟩
    · exact ⟨b, by simp [select_best_from_cluster, h, hs]⟩

/-- Helper: the best member of a cluster belongs to it and weakly
dominates every member's score. -/
theorem select_best_from_cluster_spec :
    ∀ (cl : List Candidate) (b : Candidate),
      select_best_from_cluster cl = some b →
      b ∈ cl ∧ ∀ x ∈ cl, x.score ≤ b.score := by
  intro cl
  induction cl with
  | nil => intro b h; simp [select_best_from_cluster] at h
  | cons c rest ih =>
    intro b h
    rw [select_best_from_cluster] at h
    cases hrest : select_best_from_cluster rest with
    | none =>
      rw [hrest] at h
      have hb : b = c := by simpa using h.symm
      subst hb
      have hrnil : rest = [] := by
        cases rest with
        | nil => rfl
        | cons d ds =>
          obtain ⟨b', hb'⟩ := select_best_from_cluster_isSome d ds
          rw [hb'] at hrest
          exact absurd hrest (by simp)
      subst hrnil
      exact ⟨List.mem_cons_self _ _, by
        intro x hx
        rcases List.mem_cons.mp hx with rfl | hx
        · exact le_refl _
        · simp at hx⟩
    | some b' =>
      rw [hrest] at h
      dsimp only at h
      obtain ⟨hb'mem, hb'max⟩ := ih b' hrest
      by_cases hs : b'.score ≤ c.score
      · rw [if_pos hs] at h
        have hb : b = c := by simpa using h.symm
        subst hb
        refine ⟨List.mem_cons_self _ _, ?_⟩
        intro x hx
        rcases List.mem_cons.mp hx with rfl | hx
        · exact le_refl _
        · exact le_trans (hb'max x hx) hs
      · rw [if_neg hs] at h
        have hb : b = b' := by simpa using h.symm
        subst hb
        refine ⟨List.mem_cons_of_mem _ hb'mem, ?_⟩
        intro x hx
        rcases List.mem_cons.mp hx with rfl | hx
        · exact le_of_lt (lt_of_not_le hs)
        · exact hb'max x hx

/-- Helper: with every cluster non-empty, the guaranteed-pick pass
produces exactly one representative per cluster. -/
theorem filterMap_select_best_length :
    ∀ (clusters : List (List Candidate)),
      (∀ cl ∈ clusters, cl ≠ []) →
      (clusters.filterMap select_best_from_cluster).length = clusters.length := by
  intro clusters
  induction clusters with
  | nil => intro _; rfl
  | cons cl rest ih =>
    intro hne
    have hcl : cl ≠ [] := hne cl (List.mem_cons_self _ _)
    obtain ⟨c, cs, rfl⟩ : ∃ c cs, cl = c :: cs := by
      cases cl with
      | nil => exact absurd rfl hcl
      | cons c cs => exact ⟨c, cs, rfl⟩
    obtain ⟨b, hb⟩ := select_best_from_cluster_isSome c cs
    rw [List.filterMap_cons, hb]
    simp only [List.length_cons]
    rw [ih (fun x hx => hne x (List.mem_cons_of_mem _ hx))]

/-- Helper: every guaranteed pick lies in the flattened candidate pool. -/
theorem filterMap_select_best_subset (clusters : List (List Candidate)) :
    ∀ b ∈ clusters.filterMap select_best_from_cluster, b ∈ clusters.flatten := by
  intro b hb
  obtain ⟨cl, hcl, hsel⟩ := List.mem_filterMap.mp hb
  exact List.mem_flatten.mpr ⟨cl, hcl, (select_best_from_cluster_spec cl b hsel).1⟩

/-- Helper: with globally distinct candidates the guaranteed picks are
pairwise distinct (each comes from a different cluster). -/
theorem filterMap_select_best_nodup :
    ∀ (clusters : List (List Candidate)), clusters.flatten.Nodup →
      (clusters.filterMap select_best_from_cluster).Nodup := by
  intro clusters
  induction clusters with
  | nil => intro _; exact List.nodup_nil
  | cons cl rest ih =>
    intro hnd
    rw [List.flatten_cons, List.nodup_append] at hnd
    obtain ⟨hcl, hrest, hdisj⟩ := hnd
    rw [List.filterMap_cons]
    cases hsel : select_best_from_cluster cl with
    | none => exact ih hrest
    | some b =>
      rw [List.nodup_cons]
      refine ⟨?_, ih hrest⟩
      intro hbmem
      exact hdisj (select_best_from_cluster_spec cl b hsel).1
        (filterMap_select_best_subset rest b hbmem)

/-- Helper: removing a distinct sub-collection from a duplicate-free list
by filtering leaves exactly the complement. -/
theorem length_filter_not_mem :
    ∀ (l s : List Candidate), l.Nodup → s.Nodup → (∀ x ∈ s, x ∈ l) →
      (l.filter (fun c => decide (¬ c ∈ s))).length = l.length - s.length := by
  intro l
  induction l with
  | nil =>
    intro s _ _ hsub
    have hs : s = [] := List.eq_nil_iff_forall_not_mem.mpr
      (fun x hx => by simpa using hsub x hx)
    subst hs
    rfl
  | cons a l ih =>
    intro s hln hsn hsub
    obtain ⟨hal, hln'⟩ := List.nodup_cons.mp hln
    by_cases has : a ∈ s
    · have hs1 : 1 ≤ s.length := by
        cases s with
        | nil => simp at has
        | cons x xs => simp
      rw [List.filter_cons, if_neg (by simp [has])]
      have hcongr : l.filter (fun c => decide (¬ c ∈ s)) =
          l.filter (fun c => decide (¬ c ∈ s.erase a)) := by
        apply List.filter_congr
        intro x hx
        have hxa : x ≠ a := fun h => hal (h ▸ hx)
        simp [List.mem_erase_of_ne hxa]
      have hsub' : ∀ x ∈ s.erase a, x ∈ l := by
        intro x hx
        have hxs : x ∈ s := List.mem_of_mem_erase hx
        have hxa : x ≠ a := by
          intro h
          subst h
          exact hsn.not_mem_erase hx
        rcases List.mem_cons.mp (hsub x hxs) with h | h
        · exact absurd h hxa
        · exact h
      rw [hcongr, ih (s.erase a) hln' (hsn.erase a) hsub',
        List.length_erase_of_mem has]
      have hsle : s.length ≤ (a :: l).length := by
        have := (hsn.subperm (fun {x} hx => hsub x hx)).length_le
        exact this
      simp only [List.length_cons] at hsle ⊢
      omega
    · rw [List.filter_cons, if_pos (by simp [has])]
      have hsub' : ∀ x ∈ s, x ∈ l := by
        intro x hx
        rcases List.mem_cons.mp (hsub x hx) with h | h
        · subst h; exact absurd hx has
        · exact h
      have hsle : s.length ≤ l.length :=
        (hsn.subperm (fun {x} hx => hsub' x hx)).length_le
      rw [List.length_cons, ih s hln' hsn hsub', List.length_cons]
      omega

/-- Helper: non-empty clusters make the flattened pool at least as large
as the cluster count. -/
theorem length_le_flatten_length :
    ∀ (clusters : List (List Candidate)), (∀ cl ∈ clusters, cl ≠ []) →
      clusters.length ≤ clusters.flatten.length := by
  intro clusters
  induction clusters with
  | nil => intro _; exact le_refl 0
  | cons cl rest ih =>
    intro hne
    rw [List.flatten_cons, List.length_append, List.length_cons]
    have h1 : 1 ≤ cl.length := by
      cases hcl : cl with
      | nil => exact absurd hcl (hne cl (List.mem_cons_self _ _))
      | cons c cs => simp
    have h2 := ih (fun x hx => hne x (List.mem_cons_of_mem _ hx))
    omega

/-- C1 (amended): with at least one candidate per cluster, globally
distinct candidates, no more clusters than the budget `MAX`, and at least
`MIN` candidates in total (`MIN ≤ MAX`), `ensure_coverage` first picks the
top-scoring member of every cluster (full coverage) and fills the
remaining budget with the next-highest composite scores, and the total
representative count lands inside `[MIN, MAX]`.  (As stated over every
run with merely one non-empty cluster the bound is false — see the
counterexample — so the sufficiency hypotheses are required.) -/
theorem C1_coverage_and_budget (clusters : List (List Candidate))
    (minR maxR : ℕ)
    (hne : ∀ cl ∈ clusters, cl ≠ [])
    (hnd : clusters.flatten.Nodup)
    (hcl : clusters.length ≤ maxR)
    (hminN : minR ≤ clusters.flatten.length)
    (hminmax : minR ≤ maxR) :
    (∀ cl ∈ clusters, ∃ b, select_best_from_cluster cl = some b ∧
        b ∈ cl ∧ (∀ x ∈ cl, x.score ≤ b.score) ∧
        b ∈ ensure_coverage clusters maxR) ∧
    minR ≤ (ensure_coverage clusters maxR).length ∧
    (ensure_coverage clusters maxR).length ≤ maxR := by
  have hLsel : (clusters.filterMap select_best_from_cluster).length =
      clusters.length := filterMap_select_best_length clusters hne
  have hsub : ∀ b ∈ clusters.filterMap select_best_from_cluster,
      b ∈ clusters.flatten := filterMap_select_best_subset clusters
  have hselnd : (clusters.filterMap select_best_from_cluster).Nodup :=
    filterMap_select_best_nodup clusters hnd
  have hrem : (clusters.flatten.filter
      (fun c => decide (¬ c ∈ clusters.filterMap select_best_from_cluster))).length =
      clusters.flatten.length -
        (clusters.filterMap select_best_from_cluster).length :=
    length_filter_not_mem clusters.flatten _ hnd hselnd hsub
  have hlen : (ensure_coverage clusters maxR).length =
      (clusters.filterMap select_best_from_cluster).length +
        min (maxR - (clusters.filterMap select_best_from_cluster).length)
          (clusters.flatten.length -
            (clusters.filterMap select_best_from_cluster).length) := by
    simp only [ensure_coverage, select_additional_representatives]
    rw [List.length_append, List.length_take, List.length_insertionSort, hrem]
  have hLN : clusters.length ≤ clusters.flatten.length :=
    length_le_flatten_length clusters hne
  refine ⟨?_, ?_, ?_⟩
  · intro cl hclmem
    obtain ⟨c, cs, rfl⟩ : ∃ c cs, cl = c :: cs := by
      cases hcl0 : cl with
      | nil => exact absurd hcl0 (hne cl hclmem)
      | cons c cs => exact ⟨c, cs, rfl⟩
    obtain ⟨b, hb⟩ := select_best_from_cluster_isSome c cs
    obtain ⟨hbmem, hbmax⟩ := select_best_from_cluster_spec _ b hb
    refine ⟨b, hb, hbmem, hbmax, ?_⟩
    exact List.mem_append_left _ (List.mem_filterMap.mpr ⟨_, hclmem, hb⟩)
  · rw [hlen, hLsel]
    omega
  · rw [hlen, hLsel]
    omega

/-- C1 counterexample: the count is NOT always inside the default
`[5, 10]` for every run with a non-empty cluster.  A single cluster with
a single candidate yields 1 representative (below MIN = 5), and eleven
singleton clusters yield 11 representatives (above MAX = 10, since the
guaranteed per-cluster pass ignores the budget). -/
theorem C1_budget_counterexample :
    ((ensure_coverage [[⟨0, 0, 1⟩]] 10).length = 1 ∧
      ¬ (5 ≤ (ensure_coverage [[⟨0, 0, 1⟩]] 10).length)) ∧
    ((ensure_coverage [[⟨0, 0, 1⟩], [⟨1, 1, 1⟩], [⟨2, 2, 1⟩], [⟨3, 3, 1⟩],
        [⟨4, 4, 1⟩], [⟨5, 5, 1⟩], [⟨6, 6, 1⟩], [⟨7, 7, 1⟩], [⟨8, 8, 1⟩],
        [⟨9, 9, 1⟩], [⟨10, 10, 1⟩]] 10).length = 11 ∧
      ¬ ((ensure_coverage [[⟨0, 0, 1⟩], [⟨1, 1, 1⟩], [⟨2, 2, 1⟩], [⟨3, 3, 1⟩],
        [⟨4, 4, 1⟩], [⟨5, 5, 1⟩], [⟨6, 6, 1⟩], [⟨7, 7, 1⟩], [⟨8, 8, 1⟩],
        [⟨9, 9, 1⟩], [⟨10, 10, 1⟩]] 10).length ≤ 10)) := by
  exact ⟨by with_unfolding_all decide, by with_unfolding_all decide⟩

/-- Scenario clusters for the C1 witness: 3 clusters of 5 candidates
each with distinct ids and scores. -/
def scenarioClusters : List (List Candidate) :=
  [[⟨0, 0, 90/100⟩, ⟨1, 0, 80/100⟩, ⟨2, 0, 70/100⟩, ⟨3, 0, 60/100⟩, ⟨4, 0, 50/100⟩],
   [⟨5, 1, 95/100⟩, ⟨6, 1, 85/100⟩, ⟨7, 1, 75/100⟩, ⟨8, 1, 65/100⟩, ⟨9, 1, 55/100⟩],
   [⟨10, 2, 92/100⟩, ⟨11, 2, 82/100⟩, ⟨12, 2, 72/100⟩, ⟨13, 2, 62/100⟩, ⟨14, 2, 52/100⟩]]

/-- C1 witness: on 3 clusters of 5 with `MAX = 5` all hypotheses of the
amended theorem hold with `MIN = 5`, the bound gives exactly 5, and the
result is the 3 guaranteed per-cluster top scorers (ids 0, 5, 10)
followed by the 2 highest-scoring fill picks among the remaining 12
candidates (ids 6 and 11). -/
theorem C1_coverage_and_budget_witness :
    (5 ≤ (ensure_coverage scenarioClusters 5).length ∧
      (ensure_coverage scenarioClusters 5).length ≤ 5) ∧
    ensure_coverage scenarioClusters 5 =
      [⟨0, 0, 90/100⟩, ⟨5, 1, 95/100⟩, ⟨10, 2, 92/100⟩,
        ⟨6, 1, 85/100⟩, ⟨11, 2, 82/100⟩] := by
  have happ := C1_coverage_and_budget scenarioClusters 5 5
    (by with_unfolding_all decide) (by with_unfolding_all decide)
    (by with_unfolding_all decide) (by with_unfolding_all decide)
    (by with_unfolding_all decide)
  exact ⟨⟨happ.2.1, happ.2.2⟩, by with_unfolding_all decide⟩
